import Mathlib

/-!
Verification of the music-library decryption engine and ingestion pipeline
(`src/bin/unified_web_interface.py`) against its natural-language
specification.  Bytes are modelled as `Nat` with explicit `% 256` where the
source relies on 8-bit wraparound; byte strings are `List Nat`; filesystem
state is passed explicitly.
-/

namespace MusicLib

/-! QMC mask (`QmcMask`, source lines 98-135) -/

/-- The fixed 44-byte seed vector `QmcMask.QMC_DEFAULT_MASK_MATRIX`. -/
def QMC_DEFAULT_MASK_MATRIX : List Nat :=
  [0xde, 0x51, 0xfa, 0xc3, 0x4a, 0xd6, 0xca, 0x90,
   0x7e, 0x67, 0x5e, 0xf7, 0xd5, 0x52, 0x84, 0xd8,
   0x47, 0x95, 0xbb, 0xa1, 0xaa, 0xc6, 0x66, 0x23,
   0x92, 0x62, 0xf3, 0x74, 0xa1, 0x9f, 0xf4, 0xa0,
   0x1d, 0x3f, 0x5b, 0xf0, 0x13, 0x0e, 0x09, 0x3d,
   0xf9, 0xbc, 0x00, 0x11]

/-- Source `QmcMask._generate_128`: expand a 44-byte matrix to 128 bytes by
`matrix_128[i] = matrix_44[i % 44]`. -/
def generate128 (matrix44 : List Nat) : List Nat :=
  (List.range 128).map (fun i => matrix44.getD (i % 44) 0)

/-- The 128-byte matrix built by `QmcMask.__init__` from the default seed. -/
def matrix128 : List Nat := generate128 QMC_DEFAULT_MASK_MATRIX

/-- Source `QmcMask.decrypt`: `result[cur] = data[cur] XOR matrix_128[cur & 0x7f]`
(`cur & 0x7f` is `cur % 128`). -/
def qmcMaskDecrypt (matrix : List Nat) (data : List Nat) : List Nat :=
  (List.range data.length).map (fun cur => data.getD cur 0 ^^^ matrix.getD (cur % 128) 0)

/-! NCM RC4-variant keystream (`decrypt_ncm.get_key_box` / `get_audio`,
source lines 533-551 and 591-600) -/

/-- Python parallel swap `box[i], box[j] = box[j], box[i]`. -/
def listSwap (l : List Nat) (i j : Nat) : List Nat :=
  (l.set i (l.getD j 0)).set j (l.getD i 0)

/-- One iteration of the key-schedule loop in `get_key_box`:
`j = (box[i] + j + key_data[i % key_data_len]) & 0xff` followed by the swap. -/
def ncmKsaStep (key : List Nat) (i : Nat) (s : List Nat × Nat) : List Nat × Nat :=
  let j := (s.1.getD i 0 + s.2 + key.getD (i % key.length) 0) % 256
  (listSwap s.1 i j, j)

/-- The scheduled S-box of `get_key_box`: `box = list(range(256))`, then the
key-schedule loop for `i in range(256)` starting from `j = 0`. -/
def ncmKsa (key : List Nat) : List Nat :=
  ((List.range 256).foldl (fun s i => ncmKsaStep key i s) (List.range 256, 0)).1

/-- Claim-side transcription of the spec sentence
`j = 0; for i in 0..256: j = (S[i] + j + key[i mod keyLen]) mod 256; swap(S[i], S[j])`,
written as primitive recursion on the number of completed iterations. -/
def ncmKsaSpecAux (key : List Nat) : Nat → List Nat × Nat
  | 0 => (List.range 256, 0)
  | Nat.succ i =>
      let prev := ncmKsaSpecAux key i
      let j := (prev.1.getD i 0 + prev.2 + key.getD (i % key.length) 0) % 256
      (listSwap prev.1 i j, j)

/-- The spec-side S-box after all 256 iterations. -/
def ncmKsaSpec (key : List Nat) : List Nat := (ncmKsaSpecAux key 256).1

/-- The emission loop of `get_key_box`: for `i in range(256)` emit
`box[(si + sj) & 0xff]` where `i = (i+1) & 0xff`, `si = box[i]`,
`sj = box[(i + si) & 0xff]`. -/
def ncmKeyBox (key : List Nat) : List Nat :=
  let box := ncmKsa key
  (List.range 256).map (fun i =>
    let k := (i + 1) % 256
    let si := box.getD k 0
    let sj := box.getD ((k + si) % 256) 0
    box.getD ((si + sj) % 256) 0)

/-- Decryption loop of `get_audio`: `audio_data[i] ^= key_box[i & 0xff]`. -/
def ncmDecryptAudio (keyBox : List Nat) (cipher : List Nat) : List Nat :=
  (List.range cipher.length).map (fun i => cipher.getD i 0 ^^^ keyBox.getD (i % 256) 0)

end MusicLib

namespace MusicLib

/-! Helper lemmas -/

theorem getD_map_range {α : Type} (L : Nat) (f : Nat → α) (n : Nat) (hn : n < L) (d : α) :
    ((List.range L).map f).getD n d = f n := by
  rw [List.getD_eq_getElem?_getD, List.getElem?_map, List.getElem?_range hn]
  rfl

theorem foldl_range_eq_ncmKsaSpecAux (key : List Nat) :
    ∀ n, (List.range n).foldl (fun s i => ncmKsaStep key i s) (List.range 256, 0)
      = ncmKsaSpecAux key n := by
  intro n
  induction n with
  | zero => rfl
  | succ m ih =>
      have hr : List.range (m + 1) = List.range m ++ [m] := List.range_succ m
      rw [hr, List.foldl_append, ih]
      rfl

/-! C3: default-mask QMC decryption -/

/-- Claim C3: for every byte array decrypted with the default QMC mask,
output byte `n` equals input byte `n` XOR `stream[n AND 0x7F]` where the
stream is the 128-byte expansion `stream[i] = seed[i mod 44]` of the fixed
44-byte `QMC_DEFAULT_MASK_MATRIX`; each output byte depends only on the
corresponding input byte and on `n mod 128`. -/
theorem qmc_default_mask_xor (data data' : List Nat) (n m : Nat)
    (hn : n < data.length) (hm : m < data'.length) (hmod : n % 128 = m % 128) :
    (qmcMaskDecrypt matrix128 data).getD n 0
        = data.getD n 0 ^^^ QMC_DEFAULT_MASK_MATRIX.getD (n % 128 % 44) 0
      ∧ (data.getD n 0 = data'.getD m 0 →
          (qmcMaskDecrypt matrix128 data).getD n 0
            = (qmcMaskDecrypt matrix128 data').getD m 0) := by
  have hstream : ∀ k : Nat, k < 128 →
      matrix128.getD k 0 = QMC_DEFAULT_MASK_MATRIX.getD (k % 44) 0 := by
    intro k hk
    unfold matrix128 generate128
    exact getD_map_range 128 _ k hk 0
  have h128 : n % 128 < 128 := Nat.mod_lt _ (by norm_num)
  have hout : (qmcMaskDecrypt matrix128 data).getD n 0
      = data.getD n 0 ^^^ QMC_DEFAULT_MASK_MATRIX.getD (n % 128 % 44) 0 := by
    unfold qmcMaskDecrypt
    rw [getD_map_range data.length _ n hn 0, hstream (n % 128) h128]
  refine ⟨hout, fun hbyte => ?_⟩
  have hout' : (qmcMaskDecrypt matrix128 data').getD m 0
      = data'.getD m 0 ^^^ QMC_DEFAULT_MASK_MATRIX.getD (m % 128 % 44) 0 := by
    have h128' : m % 128 < 128 := Nat.mod_lt _ (by norm_num)
    unfold qmcMaskDecrypt
    rw [getD_map_range data'.length _ m hm 0, hstream (m % 128) h128']
  rw [hout, hout', hbyte, hmod]

/-- Witness for C3 at concrete inputs `data = [3]`, `data' = [7, 3]`,
`n = 0`, `m = 128` is out of range, so use `n = m = 0`. -/
theorem qmc_default_mask_xor_witness :
    (qmcMaskDecrypt matrix128 [3]).getD 0 0
        = Nat.xor 3 (QMC_DEFAULT_MASK_MATRIX.getD 0 0)
      ∧ ((3 : Nat) = [3, 9].getD 0 0 →
          (qmcMaskDecrypt matrix128 [3]).getD 0 0
            = (qmcMaskDecrypt matrix128 [3, 9]).getD 0 0) := by
  have h := qmc_default_mask_xor [3] [3, 9] 0 0 (by decide) (by decide) (by decide)
  exact ⟨h.1, h.2⟩

/-! C2: NCM RC4-variant keystream -/

/-- Claim C2: for every valid NCM file (key seed nonempty), the keystream is
generated by the RC4-variant schedule — identity initialisation, key-schedule
`j = (S[i] + j + key[i mod keyLen]) mod 256` with a swap for `i in 0..256`,
then a 256-entry table `S[(a + b) mod 256]` with `k = (i + 1) mod 256`,
`a = S[k]`, `b = S[(k + a) mod 256]` — and every audio byte `n` is decrypted
as `cipher[n] XOR keystream[n mod 256]`, so the keystream is
position-periodic with period 256. -/
theorem ncm_keystream_rc4_variant (key : List Nat) (hk : key ≠ []) :
    ncmKsa key = ncmKsaSpec key
      ∧ (∀ i, i < 256 → (ncmKeyBox key).getD i 0 =
          (ncmKsa key).getD
            (((ncmKsa key).getD ((i + 1) % 256) 0
              + (ncmKsa key).getD
                  (((i + 1) % 256 + (ncmKsa key).getD ((i + 1) % 256) 0) % 256) 0) % 256) 0)
      ∧ (∀ cipher : List Nat, ∀ n, n < cipher.length →
          (ncmDecryptAudio (ncmKeyBox key) cipher).getD n 0
            = cipher.getD n 0 ^^^ (ncmKeyBox key).getD (n % 256) 0)
      ∧ (∀ n m : Nat, n % 256 = m % 256 →
          (ncmKeyBox key).getD (n % 256) 0 = (ncmKeyBox key).getD (m % 256) 0) := by
  refine ⟨?_, ?_, ?_, ?_⟩
  · unfold ncmKsa ncmKsaSpec
    rw [foldl_range_eq_ncmKsaSpecAux key 256]
  · intro i hi
    unfold ncmKeyBox
    rw [getD_map_range 256 _ i hi 0]
  · intro cipher n hn
    unfold ncmDecryptAudio
    rw [getD_map_range cipher.length _ n hn 0]
  · intro n m h
    rw [h]

/-- Witness for C2 at the concrete one-byte key seed `[0x64]`. -/
theorem ncm_keystream_rc4_variant_witness :
    ncmKsa [0x64] = ncmKsaSpec [0x64]
      ∧ (∀ i, i < 256 → (ncmKeyBox [0x64]).getD i 0 =
          (ncmKsa [0x64]).getD
            (((ncmKsa [0x64]).getD ((i + 1) % 256) 0
              + (ncmKsa [0x64]).getD
                  (((i + 1) % 256 + (ncmKsa [0x64]).getD ((i + 1) % 256) 0) % 256) 0) % 256) 0)
      ∧ (∀ cipher : List Nat, ∀ n, n < cipher.length →
          (ncmDecryptAudio (ncmKeyBox [0x64]) cipher).getD n 0
            = cipher.getD n 0 ^^^ (ncmKeyBox [0x64]).getD (n % 256) 0)
      ∧ (∀ n m : Nat, n % 256 = m % 256 →
          (ncmKeyBox [0x64]).getD (n % 256) 0 = (ncmKeyBox [0x64]).getD (m % 256) 0) :=
  ncm_keystream_rc4_variant [0x64] (by decide)

end MusicLib

namespace MusicLib

/-! QMC keyed formats (`decrypt_qmc`, source lines 655-744) -/

/-- Source helper `struct.unpack` reading a little-endian unsigned 32-bit integer. -/
def leU32 (bs : List Nat) : Nat :=
  bs.getD 0 0 + 256 * bs.getD 1 0 + 65536 * bs.getD 2 0 + 16777216 * bs.getD 3 0

/-- The audio prefix that `decrypt_qmc` slices off for `mgg`/`mflac`:
`key_len = LE32(file[-4:])`, `key_pos = len - 4 - key_len`,
`audio_data = file[:key_pos]` (well-formed framing assumed). -/
def qmcKeyedAudioPrefix (fileData : List Nat) : List Nat :=
  let keyLen := leU32 (fileData.drop (fileData.length - 4))
  fileData.take (fileData.length - 4 - keyLen)

/-- The audio-decryption step of `decrypt_qmc`.  For `mgg`/`mflac` the source
splits off the embedded key, but the two detection branches are `pass` and the
guard `if not qmc_mask` can never fire (`qmc_mask` is a plain object and
always truthy), so the `NotImplementedError` is unreachable and the audio
prefix is decrypted with the default 44-byte mask, exactly like every other
QMC extension. -/
def decryptQmcAudio (ext : String) (fileData : List Nat) : List Nat :=
  if ext = "mgg" ∨ ext = "mflac" then
    qmcMaskDecrypt matrix128 (qmcKeyedAudioPrefix fileData)
  else qmcMaskDecrypt matrix128 fileData

/-- Claim C1 is violated by the code: on the six-byte `mgg` file
`[0x01, 0xAA, 0x01, 0x00, 0x00, 0x00]` (audio byte `0x01`, one-byte key
`0xAA`, key length 1 in little-endian), `decrypt_qmc` parses the embedded-key
framing but then decrypts the audio prefix with the default 44-byte mask
instead of deriving a keyed matrix or failing: the output is
`[0x01 XOR 0xDE] = [0xDF]`. -/
theorem qmc_keyed_formats_use_default_mask :
    (∀ fileData : List Nat,
        decryptQmcAudio ("mgg") fileData
          = qmcMaskDecrypt matrix128 (qmcKeyedAudioPrefix fileData))
      ∧ qmcKeyedAudioPrefix [0x01, 0xAA, 0x01, 0x00, 0x00, 0x00] = [0x01]
      ∧ decryptQmcAudio ("mgg") [0x01, 0xAA, 0x01, 0x00, 0x00, 0x00] = [0xdf]
      ∧ Nat.xor 0x01 (QMC_DEFAULT_MASK_MATRIX.getD 0 0) = 0xdf := by
  refine ⟨fun fileData => ?_, by decide, by decide, by decide⟩
  unfold decryptQmcAudio
  rw [if_pos (Or.inl rfl)]

/-! Audio sniffers (`_sniff_audio_ext`, source lines 428-444, and
`MusicDecryptor._detect_audio_format_from_data`, source lines 1006-1028) -/

/-- Python slice comparison `data[off : off + len(sig)] == sig`. -/
def matchesAt (data sig : List Nat) (off : Nat) : Bool :=
  (data.drop off).take sig.length == sig

/-- The five signatures of `_sniff_audio_ext`, in dict insertion order. -/
def sniffHeaders : List (List Nat × String) :=
  [([0x49, 0x44, 0x33], "mp3"),
   ([0x66, 0x4c, 0x61, 0x43], "flac"),
   ([0x4f, 0x67, 0x67, 0x53], "ogg"),
   ([0x66, 0x74, 0x79, 0x70], "m4a"),
   ([0x52, 0x49, 0x46, 0x46], "wav")]

/-- The loop of `_sniff_audio_ext`: for each header, `data.startswith(header)`
then `len(data) > 4 and data[4:4+len(header)] == header`. -/
def sniffGo (data : List Nat) (fb : String) : List (List Nat × String) → String
  | [] => fb
  | (h, e) :: rest =>
      if matchesAt data h 0 then e
      else if decide (4 < data.length) && matchesAt data h 4 then e
      else sniffGo data fb rest

/-- Source `EnhancedUniversalDecryptor._sniff_audio_ext` with its fallback. -/
def sniffAudioExt (data : List Nat) (fb : String) : String :=
  sniffGo data fb sniffHeaders

/-- One signature test "at offset 0 and also at offset 4". -/
def sigHitAt0or4 (data sig : List Nat) : Bool :=
  matchesAt data sig 0 || (decide (4 < data.length) && matchesAt data sig 4)

/-- Claim-side transcription of the C10 reading of the sniffer: the five
signatures in the fixed order `ID3`, `fLaC`, `OggS`, `ftyp`, `RIFF`, each
tested at offset 0 and at offset 4 before moving to the next; first match
wins; `RIFF` maps to wav without any `WAVE` check at offset 8. -/
def sniffSpecOrdered (data : List Nat) (fb : String) : String :=
  if sigHitAt0or4 data [0x49, 0x44, 0x33] then "mp3"
  else if sigHitAt0or4 data [0x66, 0x4c, 0x61, 0x43] then "flac"
  else if sigHitAt0or4 data [0x4f, 0x67, 0x67, 0x53] then "ogg"
  else if sigHitAt0or4 data [0x66, 0x74, 0x79, 0x70] then "m4a"
  else if sigHitAt0or4 data [0x52, 0x49, 0x46, 0x46] then "wav"
  else fb

/-- No signature of `_sniff_audio_ext` matches at offset 0 or offset 4. -/
def noSniffSigMatch (data : List Nat) : Bool :=
  sniffHeaders.all (fun he => !sigHitAt0or4 data he.1)

/-- Source `MusicDecryptor._detect_audio_format_from_data`. -/
def detectAudioFormatFromData (data : List Nat) : String :=
  if data.length < 12 then ".mp3"
  else
    let header := data.take 12
    if matchesAt header [0x49, 0x44, 0x33] 0 || matchesAt header [0xff, 0xfb] 0
        || matchesAt header [0xff, 0xf3] 0 then ".mp3"
    else if matchesAt header [0x66, 0x4c, 0x61, 0x43] 0 then ".flac"
    else if matchesAt header [0x4f, 0x67, 0x67, 0x53] 0 then ".ogg"
    else if matchesAt header [0x52, 0x49, 0x46, 0x46] 0
        && ((header.drop 8).take 4 == [0x57, 0x41, 0x56, 0x45]) then ".wav"
    else if matchesAt header [0x00, 0x00, 0x00] 0
        && [[0x66, 0x74, 0x79, 0x70], [0x4d, 0x34, 0x41, 0x20],
            [0x4d, 0x34, 0x56, 0x20], [0x69, 0x73, 0x6f, 0x6d]].contains
             ((header.drop 4).take 4) then ".m4a"
    else if matchesAt header [0xff, 0xf1] 0 || matchesAt header [0xff, 0xf9] 0 then ".aac"
    else ".mp3"

/-- Collapsing the two offset tests of one signature into a disjunction. -/
theorem if_if_or (a b : Bool) (x y : String) :
    (if a then x else if b then x else y) = (if a || b then x else y) := by
  cases a <;> simp

/-- The sniffer loop is the ordered five-signature test at offsets 0 and 4. -/
theorem sniffAudioExt_eq_sniffSpecOrdered (data : List Nat) (fb : String) :
    sniffAudioExt data fb = sniffSpecOrdered data fb := by
  show sniffGo data fb sniffHeaders = sniffSpecOrdered data fb
  simp only [sniffHeaders, sniffGo, sniffSpecOrdered, sigHitAt0or4, if_if_or]

/-- Claim C10: the audio sniffer tests each of its five signatures (`ID3`,
`fLaC`, `OggS`, `ftyp`, `RIFF`, in that fixed order) at offset 0 and also at
offset 4 before moving to the next signature; a payload with `fLaC` at
offset 4 is classified as flac, `ID3` at offset 4 takes precedence over
`OggS` at offset 0, and `RIFF` is classified as wav without checking for
`WAVE` at offset 8. -/
theorem sniffer_checks_offsets_0_and_4 :
    (∀ (data : List Nat) (fb : String), sniffAudioExt data fb = sniffSpecOrdered data fb)
      ∧ sniffAudioExt [0, 0, 0, 0, 0x66, 0x4c, 0x61, 0x43] ("xxx") = "flac"
      ∧ sniffAudioExt [0x4f, 0x67, 0x67, 0x53, 0x49, 0x44, 0x33, 0, 0, 0, 0, 0] ("xxx") = "mp3"
      ∧ sniffAudioExt [0x52, 0x49, 0x46, 0x46, 0, 0, 0, 0, 0, 0, 0, 0] ("xxx") = "wav" :=
  ⟨sniffAudioExt_eq_sniffSpecOrdered, by decide, by decide, by decide⟩

/-- Claim C8 as amended: for every payload of at least 12 bytes, the legacy
detector `_detect_audio_format_from_data` returns `.mp3` when the payload
begins with `ID3`, `FF FB`, or `FF F3`; the enhanced sniffer
`_sniff_audio_ext` returns mp3 when the payload begins with `ID3`, but it
does not test `FF FB`/`FF F3` and returns the fallback extension whenever
none of its five signatures matches at offset 0 or offset 4. -/
theorem sniffer_mp3_signatures (data : List Nat) (fb : String)
    (h12 : 12 ≤ data.length) :
    (data.take 3 = [0x49, 0x44, 0x33] → detectAudioFormatFromData data = ".mp3")
      ∧ (data.take 2 = [0xff, 0xfb] → detectAudioFormatFromData data = ".mp3")
      ∧ (data.take 2 = [0xff, 0xf3] → detectAudioFormatFromData data = ".mp3")
      ∧ (data.take 3 = [0x49, 0x44, 0x33] → sniffAudioExt data fb = "mp3")
      ∧ (noSniffSigMatch data = true → sniffAudioExt data fb = fb) := by
  have hnot : ¬ data.length < 12 := by omega
  have htake : ∀ k : Nat, k ≤ 12 → (data.take 12).take k = data.take k := by
    intro k hk
    rw [List.take_take, Nat.min_eq_left hk]
  refine ⟨?_, ?_, ?_, ?_, ?_⟩
  · intro h
    have h3 : (data.take 12).take 3 = [0x49, 0x44, 0x33] := by
      rw [htake 3 (by omega), h]
    unfold detectAudioFormatFromData matchesAt
    rw [if_neg hnot]
    simp [h3]
  · intro h
    have h2 : (data.take 12).take 2 = [0xff, 0xfb] := by
      rw [htake 2 (by omega), h]
    unfold detectAudioFormatFromData matchesAt
    rw [if_neg hnot]
    simp [h2]
  · intro h
    have h2 : (data.take 12).take 2 = [0xff, 0xf3] := by
      rw [htake 2 (by omega), h]
    unfold detectAudioFormatFromData matchesAt
    rw [if_neg hnot]
    simp [h2]
  · intro h
    rw [sniffAudioExt_eq_sniffSpecOrdered]
    unfold sniffSpecOrdered sigHitAt0or4 matchesAt
    simp [h]
  · intro h
    rw [sniffAudioExt_eq_sniffSpecOrdered]
    simp only [noSniffSigMatch, sniffHeaders, List.all_cons, List.all_nil,
      Bool.and_eq_true, Bool.not_eq_true'] at h
    unfold sniffSpecOrdered
    simp [h.1, h.2.1, h.2.2.1, h.2.2.2.1, h.2.2.2.2.1]

/-- Witness for C8 at the 12-byte payload `ID3` followed by nine zero bytes,
with fallback `ogg`. -/
theorem sniffer_mp3_signatures_witness :
    ([0x49, 0x44, 0x33, 0, 0, 0, 0, 0, 0, 0, 0, 0] : List Nat).take 3
          = [0x49, 0x44, 0x33]
      ∧ detectAudioFormatFromData [0x49, 0x44, 0x33, 0, 0, 0, 0, 0, 0, 0, 0, 0] = ".mp3"
      ∧ sniffAudioExt [0x49, 0x44, 0x33, 0, 0, 0, 0, 0, 0, 0, 0, 0] ("ogg") = "mp3" := by
  have h := sniffer_mp3_signatures [0x49, 0x44, 0x33, 0, 0, 0, 0, 0, 0, 0, 0, 0]
    ("ogg") (by decide)
  exact ⟨by decide, h.1 (by decide), h.2.2.2.1 (by decide)⟩

/-- Claim C8 is false as stated: the enhanced sniffer `_sniff_audio_ext`
never tests the `FF FB` signature, so a 12-byte payload beginning
`FF FB` with fallback extension `flac` is classified as `flac`, not mp3. -/
theorem sniffer_fffb_counterexample :
    12 ≤ ([0xff, 0xfb, 0, 0, 0, 0, 0, 0, 0, 0, 0, 0] : List Nat).length
      ∧ ([0xff, 0xfb, 0, 0, 0, 0, 0, 0, 0, 0, 0, 0] : List Nat).take 2 = [0xff, 0xfb]
      ∧ sniffAudioExt [0xff, 0xfb, 0, 0, 0, 0, 0, 0, 0, 0, 0, 0] ("flac") = "flac"
      ∧ ¬ sniffAudioExt [0xff, 0xfb, 0, 0, 0, 0, 0, 0, 0, 0, 0, 0] ("flac") = "mp3" := by
  decide

/-! Filename sanitisation (`MusicLibraryManager._sanitize_filename`,
source lines 1132-1156) -/

/-- The characters replaced with an underscore on Windows. -/
def winInvalidChars : List Char :=
  ['<', '>', ':', '"', '/', '\\', '|', '?', '*']

/-- A character stripped by `filename.strip(". ")`. -/
def isDotOrSpace (c : Char) : Bool := c == '.' || c == ' '

/-- Python `filename.strip(". ")`: drop leading and trailing dots/spaces. -/
def stripDotsSpaces (cs : List Char) : List Char :=
  ((cs.dropWhile isDotOrSpace).reverse.dropWhile isDotOrSpace).reverse

/-- Source `_sanitize_filename` on a filename given as a character list: replace
invalid characters with an underscore (all nine on Windows, only the slash on
POSIX), strip leading/trailing dots and spaces, substitute `unnamed` when
empty, and truncate when longer than 255 — the source compares and slices the
Python string, i.e. it counts CHARACTERS, not UTF-8 bytes. -/
def sanitizeNamed (isWin : Bool) (cs : List Char) : List Char :=
  let replaced := cs.map (fun c =>
    if isWin then (if c ∈ winInvalidChars then '_' else c)
    else (if c == '/' then '_' else c))
  let stripped := stripDotsSpaces replaced
  if stripped.isEmpty then ['u', 'n', 'n', 'a', 'm', 'e', 'd'] else stripped

/-- The final length clamp, source `if len(filename) > 255: filename = filename[:255]`,
applied to the replaced, stripped, non-empty name. -/
def sanitizeFilename (isWin : Bool) (cs : List Char) : List Char :=
  if 255 < (sanitizeNamed isWin cs).length then (sanitizeNamed isWin cs).take 255
  else sanitizeNamed isWin cs

/-- UTF-8 size of one character (1 to 4 bytes). -/
def charUtf8Size (c : Char) : Nat :=
  if c.toNat < 0x80 then 1
  else if c.toNat < 0x800 then 2
  else if c.toNat < 0x10000 then 3
  else 4

/-- UTF-8 byte length of a character list. -/
def utf8Length (cs : List Char) : Nat :=
  (cs.map charUtf8Size).sum

/-- The `unnamed` substitution always yields a non-empty name. -/
theorem named_ne_nil (l : List Char) :
    (if (stripDotsSpaces l).isEmpty then ['u', 'n', 'n', 'a', 'm', 'e', 'd']
      else stripDotsSpaces l) ≠ [] := by
  split
  · simp
  · next h =>
      intro he
      rw [he] at h
      simp at h

/-- Claim C9 as amended: for every input filename the sanitised filename is
non-empty (`unnamed` substituted when stripping leaves nothing) and at most
255 CHARACTERS long; its UTF-8 byte length is not bounded by 255. -/
theorem sanitize_filename_nonempty_bounded (isWin : Bool) (cs : List Char) :
    sanitizeFilename isWin cs ≠ [] ∧ (sanitizeFilename isWin cs).length ≤ 255 := by
  have hn : sanitizeNamed isWin cs ≠ [] := by
    simp only [sanitizeNamed]
    exact named_ne_nil _
  unfold sanitizeFilename
  by_cases h : 255 < (sanitizeNamed isWin cs).length
  · rw [if_pos h]
    have hlen : ((sanitizeNamed isWin cs).take 255).length = 255 := by
      rw [List.length_take]
      omega
    constructor
    · intro he
      rw [he] at hlen
      simp at hlen
    · omega
  · rw [if_neg h]
    exact ⟨hn, by omega⟩

/-- Witness for the amended C9 claim at the concrete POSIX filename `" .a/b"`:
the sanitised name is `a_b`, non-empty and within 255 characters. -/
theorem sanitize_filename_nonempty_bounded_witness :
    sanitizeFilename false [' ', '.', 'a', '/', 'b'] ≠ []
      ∧ (sanitizeFilename false [' ', '.', 'a', '/', 'b']).length ≤ 255 :=
  sanitize_filename_nonempty_bounded false [' ', '.', 'a', '/', 'b']

set_option maxRecDepth 40000 in
/-- Claim C9 is false as stated: the source clamps to 255 CHARACTERS, not
255 UTF-8 bytes, so a filename of 256 CJK characters sanitises to 255
characters whose UTF-8 encoding is 765 bytes. -/
theorem sanitize_filename_byte_length_counterexample :
    (sanitizeFilename false (List.replicate 256 '音')).length = 255
      ∧ utf8Length (sanitizeFilename false (List.replicate 256 '音')) = 765
      ∧ ¬ utf8Length (sanitizeFilename false (List.replicate 256 '音')) ≤ 255 := by
  decide

/-! Library ingestion model (`MusicLibraryManager`, source lines 1089-1588)

Filesystem paths are modelled structurally: a directory role, a subdirectory
string (for files nested under `Library/` found by `rglob`), and a file name.
A file name carries its stem, its extension, and the optional `(N)` counter
that the collision loops append; the counter is kept as a separate field so
that distinct counters give distinct names, exactly as distinct suffixed
path strings do on disk. -/

/-- The destination directories managed by the ingestion router. -/
inductive Dir where
  | library
  | newDir
  | duplicate
  | trash
deriving DecidableEq

/-- A file name: stem, optional collision counter `(N)`, extension. -/
structure MName where
  stem : String
  counter : Option Nat
  ext : String
deriving DecidableEq

/-- A path: owning directory, subdirectory inside it, file name. -/
structure FPath where
  dir : Dir
  sub : String
  name : MName
deriving DecidableEq

/-- The stem as a Python `Path(...).stem` string: the collision counter is
part of the rendered stem. -/
def fullStem (n : MName) : String :=
  n.stem ++ (match n.counter with
    | none => ""
    | some k => "(" ++ toString k ++ ")")

/-- The rendered file name string, `stem(N).ext`. -/
def renderName (n : MName) : String := fullStem n ++ "." ++ n.ext

/-- A catalog record (the fields the claims are about). -/
structure Song where
  file_hash : String
  file_path : FPath
  title : String
  status : String
  date_added : Option String
deriving DecidableEq

/-- Manager state: in-memory catalog, files on disk, last persisted catalog. -/
structure LibState where
  catalog : List Song
  disk : List FPath
  savedCatalog : Option (List Song)
deriving DecidableEq

/-- The result of `extract_metadata` on the incoming file: its path, its MD5,
and the extracted title (`none` models a missing/empty title, which raises). -/
structure Incoming where
  path : FPath
  file_hash : String
  title : Option String
deriving DecidableEq

/-- The candidate targets of the collision loop: candidate 0 is the plain
destination name, candidate `k+1` appends `(k+1)` to the rendered stem. -/
def candidateAt (dest : Dir) (nm : MName) : Nat → FPath
  | 0 => ⟨dest, "", nm⟩
  | Nat.succ k => ⟨dest, "", ⟨fullStem nm, some (k + 1), nm.ext⟩⟩

/-- The collision counter of a path (0 when absent). -/
def counterVal (p : FPath) : Nat :=
  match p.name.counter with
  | none => 0
  | some k => k

/-- The largest collision counter present on disk. -/
def maxCounter (disk : List FPath) : Nat :=
  disk.foldr (fun p m => max (counterVal p) m) 0

theorem counterVal_le_maxCounter (disk : List FPath) (p : FPath) (hp : p ∈ disk) :
    counterVal p ≤ maxCounter disk := by
  induction disk with
  | nil => cases hp
  | cons q rest ih =>
      rcases List.mem_cons.mp hp with rfl | hp'
      · exact le_max_left _ _
      · exact le_trans (ih hp') (le_max_right _ _)

theorem exists_fresh (disk : List FPath) (dest : Dir) (nm : MName) :
    ∃ n, candidateAt dest nm (n + 1) ∉ disk := by
  refine ⟨maxCounter disk, fun h => ?_⟩
  have hle := counterVal_le_maxCounter disk _ h
  simp [candidateAt, counterVal] at hle

/-- The collision loop shared by every destination: keep the plain name when
it is free, otherwise append `(N)`, incrementing `N` from 1 until the target
does not exist. -/
def resolveTarget (disk : List FPath) (dest : Dir) (nm : MName) : FPath :=
  if candidateAt dest nm 0 ∈ disk then
    candidateAt dest nm (Nat.find (exists_fresh disk dest nm) + 1)
  else candidateAt dest nm 0

theorem resolveTarget_not_mem (disk : List FPath) (dest : Dir) (nm : MName) :
    resolveTarget disk dest nm ∉ disk := by
  unfold resolveTarget
  split
  · exact Nat.find_spec (exists_fresh disk dest nm)
  · next h => exact h

theorem candidateAt_dir (dest : Dir) (nm : MName) (n : Nat) :
    (candidateAt dest nm n).dir = dest := by
  cases n <;> rfl

theorem resolveTarget_dir (disk : List FPath) (dest : Dir) (nm : MName) :
    (resolveTarget disk dest nm).dir = dest := by
  unfold resolveTarget
  split <;> exact candidateAt_dir _ _ _

/-- Source `shutil.move`: the source vanishes, the target holds exactly one file
(moving onto an existing path overwrites it). -/
def moveFile (st : LibState) (src tgt : FPath) : LibState :=
  { st with disk := tgt :: ((st.disk.erase src).erase tgt) }

/-- Source `save_catalog`: persist the in-memory catalog. -/
def saveCatalog (st : LibState) : LibState :=
  { st with savedCatalog := some st.catalog }

/-- The hash-duplicate scan of `add_music_file` (records sharing the MD5). -/
def exactDuplicates (catalog : List Song) (hash : String) : List Song :=
  catalog.filter (fun s => s.file_hash == hash)

/-- Python `str.lower()`, modelled character-wise. -/
def strLower (s : String) : String := String.mk (s.data.map Char.toLower)

/-- The name-duplicate scan of `add_music_file`: records whose backing file
exists and whose lowercased stem equals the incoming lowercased stem. -/
def nameDuplicates (st : LibState) (stemIn : String) : List Song :=
  st.catalog.filter (fun s =>
    decide (s.file_path ∈ st.disk)
      && (strLower (fullStem s.file_path.name) == strLower stemIn))

/-- The status and destination returned by `add_music_file`. -/
structure AddResult where
  status : String
  movedTo : Option FPath
deriving DecidableEq

/-- Source `MusicLibraryManager.add_music_file`: missing title raises and routes to
Trash/ with collision handling; a non-empty duplicate set routes to
Duplicate/ with collision handling and leaves the catalog alone; otherwise
the file is moved to `Library/<name>` WITHOUT collision handling, a record is
appended, and the catalog is saved. -/
def addMusicFile (st : LibState) (f : Incoming) (now : String) : AddResult × LibState :=
  match f.title with
  | none =>
      let tgt := resolveTarget st.disk Dir.trash f.path.name
      (⟨"trash", some tgt⟩, moveFile st f.path tgt)
  | some t =>
      let dups := exactDuplicates st.catalog f.file_hash
          ++ nameDuplicates st (fullStem f.path.name)
      if dups ≠ [] then
        let tgt := resolveTarget st.disk Dir.duplicate f.path.name
        (⟨"duplicate", some tgt⟩, moveFile st f.path tgt)
      else
        let tgt : FPath := ⟨Dir.library, "", f.path.name⟩
        let st1 := moveFile st f.path tgt
        let song : Song := ⟨f.file_hash, tgt, t, "library", some now⟩
        (⟨"library", some tgt⟩, saveCatalog { st1 with catalog := st1.catalog ++ [song] })

/-- Claim C4: when metadata extraction yields a title and the union of
hash duplicates and existing-file stem duplicates (case-insensitive) is
non-empty, `add_music_file` moves the file to Duplicate/, returns
`status=duplicate`, and appends no record to the catalog. -/
theorem add_music_file_duplicate_route (st : LibState) (f : Incoming) (now t : String)
    (ht : f.title = some t)
    (hd : exactDuplicates st.catalog f.file_hash
        ++ nameDuplicates st (fullStem f.path.name) ≠ []) :
    (addMusicFile st f now).1.status = "duplicate"
      ∧ (addMusicFile st f now).2.catalog = st.catalog
      ∧ (addMusicFile st f now).1.movedTo
          = some (resolveTarget st.disk Dir.duplicate f.path.name)
      ∧ (resolveTarget st.disk Dir.duplicate f.path.name).dir = Dir.duplicate
      ∧ resolveTarget st.disk Dir.duplicate f.path.name
          ∈ (addMusicFile st f now).2.disk := by
  unfold addMusicFile
  rw [ht]
  simp only [if_pos hd]
  refine ⟨?_, ?_, ?_, ?_, ?_⟩ <;>
    first
      | trivial
      | exact resolveTarget_dir _ _ _
      | exact List.mem_cons_self _ _

/-- Witness for C4: a catalog holding a record with the same MD5 as the
incoming `song.mp3` routes the second copy to Duplicate/. -/
theorem add_music_file_duplicate_route_witness :
    (addMusicFile
        ⟨[⟨"h1", ⟨Dir.library, "", ⟨"song", none, "mp3"⟩⟩, "Hello", "library", none⟩],
         [⟨Dir.library, "", ⟨"song", none, "mp3"⟩⟩, ⟨Dir.newDir, "", ⟨"copy", none, "mp3"⟩⟩],
         none⟩
        ⟨⟨Dir.newDir, "", ⟨"copy", none, "mp3"⟩⟩, "h1", some ("Hello")⟩ ("now")).1.status
        = "duplicate"
      ∧ (addMusicFile
        ⟨[⟨"h1", ⟨Dir.library, "", ⟨"song", none, "mp3"⟩⟩, "Hello", "library", none⟩],
         [⟨Dir.library, "", ⟨"song", none, "mp3"⟩⟩, ⟨Dir.newDir, "", ⟨"copy", none, "mp3"⟩⟩],
         none⟩
        ⟨⟨Dir.newDir, "", ⟨"copy", none, "mp3"⟩⟩, "h1", some ("Hello")⟩ ("now")).2.catalog
        = [⟨"h1", ⟨Dir.library, "", ⟨"song", none, "mp3"⟩⟩, "Hello", "library", none⟩] := by
  have h := add_music_file_duplicate_route
    ⟨[⟨"h1", ⟨Dir.library, "", ⟨"song", none, "mp3"⟩⟩, "Hello", "library", none⟩],
     [⟨Dir.library, "", ⟨"song", none, "mp3"⟩⟩, ⟨Dir.newDir, "", ⟨"copy", none, "mp3"⟩⟩],
     none⟩
    ⟨⟨Dir.newDir, "", ⟨"copy", none, "mp3"⟩⟩, "h1", some ("Hello")⟩ ("now") ("Hello")
    rfl (by decide)
  exact ⟨h.1, h.2.1⟩

/-- Claim C5: every `add_music_file` call that returns `status=library` moves
the file into Library/, stamps `date_added`, appends exactly one record with
`status=library`, and persists the catalog before returning. -/
theorem add_music_file_library_route (st : LibState) (f : Incoming) (now : String)
    (hlib : (addMusicFile st f now).1.status = "library") :
    ∃ t, f.title = some t
      ∧ (addMusicFile st f now).2.catalog
          = st.catalog
              ++ [⟨f.file_hash, ⟨Dir.library, "", f.path.name⟩, t, "library", some now⟩]
      ∧ (addMusicFile st f now).1.movedTo = some ⟨Dir.library, "", f.path.name⟩
      ∧ (addMusicFile st f now).2.savedCatalog = some ((addMusicFile st f now).2.catalog)
      ∧ (⟨Dir.library, "", f.path.name⟩ : FPath) ∈ (addMusicFile st f now).2.disk := by
  match hf : f.title with
  | none =>
      rw [addMusicFile, hf] at hlib
      simp at hlib
  | some t =>
      by_cases hd : exactDuplicates st.catalog f.file_hash
          ++ nameDuplicates st (fullStem f.path.name) ≠ []
      · rw [addMusicFile, hf] at hlib
        simp only [if_pos hd] at hlib
        simp at hlib
      · refine ⟨t, rfl, ?_⟩
        rw [addMusicFile, hf]
        simp only [if_neg hd]
        refine ⟨?_, ?_, ?_, ?_⟩ <;>
          first
            | trivial
            | exact List.mem_cons_self _ _

/-- Witness for C5: ingesting `song.mp3` into an empty catalog appends one
library record and persists it. -/
theorem add_music_file_library_route_witness :
    ∃ t, (⟨⟨Dir.newDir, "", ⟨"song", none, "mp3"⟩⟩, "h1", some ("Hello")⟩ : Incoming).title
          = some t
      ∧ (addMusicFile ⟨[], [⟨Dir.newDir, "", ⟨"song", none, "mp3"⟩⟩], none⟩
            ⟨⟨Dir.newDir, "", ⟨"song", none, "mp3"⟩⟩, "h1", some ("Hello")⟩ ("now")).2.catalog
          = [] ++ [⟨"h1", ⟨Dir.library, "", ⟨"song", none, "mp3"⟩⟩, t, "library", some ("now")⟩]
      ∧ (addMusicFile ⟨[], [⟨Dir.newDir, "", ⟨"song", none, "mp3"⟩⟩], none⟩
            ⟨⟨Dir.newDir, "", ⟨"song", none, "mp3"⟩⟩, "h1", some ("Hello")⟩ ("now")).1.movedTo
          = some ⟨Dir.library, "", ⟨"song", none, "mp3"⟩⟩
      ∧ (addMusicFile ⟨[], [⟨Dir.newDir, "", ⟨"song", none, "mp3"⟩⟩], none⟩
            ⟨⟨Dir.newDir, "", ⟨"song", none, "mp3"⟩⟩, "h1", some ("Hello")⟩ ("now")).2.savedCatalog
          = some ((addMusicFile ⟨[], [⟨Dir.newDir, "", ⟨"song", none, "mp3"⟩⟩], none⟩
            ⟨⟨Dir.newDir, "", ⟨"song", none, "mp3"⟩⟩, "h1", some ("Hello")⟩ ("now")).2.catalog)
      ∧ (⟨Dir.library, "", ⟨"song", none, "mp3"⟩⟩ : FPath)
          ∈ (addMusicFile ⟨[], [⟨Dir.newDir, "", ⟨"song", none, "mp3"⟩⟩], none⟩
            ⟨⟨Dir.newDir, "", ⟨"song", none, "mp3"⟩⟩, "h1", some ("Hello")⟩ ("now")).2.disk :=
  add_music_file_library_route ⟨[], [⟨Dir.newDir, "", ⟨"song", none, "mp3"⟩⟩], none⟩
    ⟨⟨Dir.newDir, "", ⟨"song", none, "mp3"⟩⟩, "h1", some ("Hello")⟩ ("now") (by decide)

/-- Claim C7 as amended: at the Duplicate/ and Trash/ destinations (and in
the duplicate-sweep) a collision is resolved by appending `(N)` before the
extension, incrementing `N` from 1 until the target does not exist — so the
chosen target never overwrites, and an existing `Song (1).mp3` yields the
next target `Song (1)(1).mp3`; the move into Library/ inside
`add_music_file`, however, uses the plain name without any collision
handling. -/
theorem collision_suffix_resolution :
    (∀ (disk : List FPath) (dest : Dir) (nm : MName), resolveTarget disk dest nm ∉ disk)
      ∧ renderName (resolveTarget [⟨Dir.duplicate, "", ⟨"Song (1)", none, "mp3"⟩⟩]
            Dir.duplicate ⟨"Song (1)", none, "mp3"⟩).name = "Song (1)(1).mp3"
      ∧ (∀ (st : LibState) (f : Incoming) (now : String),
          (addMusicFile st f now).1.status = "duplicate"
              ∨ (addMusicFile st f now).1.status = "trash" →
            ∃ tgt, (addMusicFile st f now).1.movedTo = some tgt ∧ tgt ∉ st.disk) := by
  refine ⟨resolveTarget_not_mem, ?_, ?_⟩
  · have h0 : Nat.find (exists_fresh [⟨Dir.duplicate, "", ⟨"Song (1)", none, "mp3"⟩⟩]
        Dir.duplicate ⟨"Song (1)", none, "mp3"⟩) = 0 := by
      rw [Nat.find_eq_zero]
      decide
    unfold resolveTarget
    rw [if_pos (by decide), h0]
    decide
  · intro st f now hst
    match hf : f.title with
    | none =>
        refine ⟨resolveTarget st.disk Dir.trash f.path.name, ?_, resolveTarget_not_mem _ _ _⟩
        rw [addMusicFile, hf]
    | some t =>
        by_cases hd : exactDuplicates st.catalog f.file_hash
            ++ nameDuplicates st (fullStem f.path.name) ≠ []
        · refine ⟨resolveTarget st.disk Dir.duplicate f.path.name, ?_,
            resolveTarget_not_mem _ _ _⟩
          rw [addMusicFile, hf]
          simp only [if_pos hd]
        · rw [addMusicFile, hf] at hst
          simp only [if_neg hd] at hst
          simp at hst

/-- Claim C7 is false as stated: with an uncatalogued `Library/song.mp3`
already on disk, ingesting a distinct `New/song.mp3` (different MD5, no
catalog record) takes the library branch, whose move uses the plain target
name: the existing library file is overwritten and only one file remains. -/
theorem add_music_file_library_overwrite_counterexample :
    (addMusicFile
        ⟨[], [⟨Dir.library, "", ⟨"song", none, "mp3"⟩⟩, ⟨Dir.newDir, "", ⟨"song", none, "mp3"⟩⟩],
         none⟩
        ⟨⟨Dir.newDir, "", ⟨"song", none, "mp3"⟩⟩, "h2", some ("Hello")⟩ ("now")).1.status
        = "library"
      ∧ (addMusicFile
        ⟨[], [⟨Dir.library, "", ⟨"song", none, "mp3"⟩⟩, ⟨Dir.newDir, "", ⟨"song", none, "mp3"⟩⟩],
         none⟩
        ⟨⟨Dir.newDir, "", ⟨"song", none, "mp3"⟩⟩, "h2", some ("Hello")⟩ ("now")).1.movedTo
        = some ⟨Dir.library, "", ⟨"song", none, "mp3"⟩⟩
      ∧ (⟨Dir.library, "", ⟨"song", none, "mp3"⟩⟩ : FPath)
          ∈ ([⟨Dir.library, "", ⟨"song", none, "mp3"⟩⟩,
              ⟨Dir.newDir, "", ⟨"song", none, "mp3"⟩⟩] : List FPath).erase
              ⟨Dir.newDir, "", ⟨"song", none, "mp3"⟩⟩
      ∧ (addMusicFile
        ⟨[], [⟨Dir.library, "", ⟨"song", none, "mp3"⟩⟩, ⟨Dir.newDir, "", ⟨"song", none, "mp3"⟩⟩],
         none⟩
        ⟨⟨Dir.newDir, "", ⟨"song", none, "mp3"⟩⟩, "h2", some ("Hello")⟩ ("now")).2.disk
        = [⟨Dir.library, "", ⟨"song", none, "mp3"⟩⟩] := by
  decide

/-! Duplicate sweep (`check_duplicates_in_library`, source lines 1375-1477)

`rglob` walks Library/ recursively, so two files with the same name may live
in different subdirectories; a music file is modelled by its subdirectory,
its stem (original case) and its extension. -/

/-- A music file found under Library/ by `rglob`. -/
structure LibFile where
  sub : String
  stem : String
  ext : String
deriving DecidableEq

/-- The group of files sharing one lowercased stem (`name_groups[key]`). -/
def sameStemGroup (files : List LibFile) (key : String) : List LibFile :=
  files.filter (fun f => strLower f.stem == key)

/-- Test `len(set(l)) <= 1` for a list of strings. -/
def allSameStr : List String → Bool
  | [] => true
  | x :: xs => xs.all (fun y => y == x)

/-- The duplicate-group test of `check_duplicates_in_library`: more than one
file AND (more than one distinct lowercased extension OR more than one
distinct original-case stem). -/
def flaggedGroup (g : List LibFile) : Bool :=
  decide (1 < g.length)
    && (!allSameStr (g.map (fun f => strLower f.ext))
        || !allSameStr (g.map (fun f => f.stem)))

/-- Source `check_duplicates_in_library`: every file of every flagged group moves to
Duplicate/; the remaining Library/ files are those of unflagged groups. -/
def checkDuplicatesInLibrary (files : List LibFile) : List LibFile :=
  files.filter (fun f => !flaggedGroup (sameStemGroup files (strLower f.stem)))

theorem allSameStr_iff (l : List String) :
    allSameStr l = true ↔ ∀ a ∈ l, ∀ b ∈ l, a = b := by
  cases l with
  | nil => simp [allSameStr]
  | cons x xs =>
      simp only [allSameStr, List.all_eq_true, beq_iff_eq]
      constructor
      · intro h a ha b hb
        have hx : ∀ c ∈ x :: xs, c = x := by
          intro c hc
          rcases List.mem_cons.mp hc with rfl | hc'
          · rfl
          · exact h c hc'
        rw [hx a ha, hx b hb]
      · intro h y hy
        exact h y (List.mem_cons_of_mem x hy) x (List.mem_cons_self x xs)

/-- Claim C6 as amended: after `check_duplicates_in_library`, every group of
remaining Library/ files sharing a lowercased stem either has size at most 1
or consists of files that all share one lowercased extension and one
original-case stem (which `rglob` can produce from distinct subdirectories);
groups with distinct extensions or distinct case are fully removed. -/
theorem check_duplicates_residual_groups (files : List LibFile) (key : String)
    (h2 : 2 ≤ (sameStemGroup (checkDuplicatesInLibrary files) key).length) :
    allSameStr ((sameStemGroup (checkDuplicatesInLibrary files) key).map
        (fun f => strLower f.ext)) = true
      ∧ allSameStr ((sameStemGroup (checkDuplicatesInLibrary files) key).map
        (fun f => f.stem)) = true := by
  have hne : sameStemGroup (checkDuplicatesInLibrary files) key ≠ [] := by
    intro he
    rw [he] at h2
    simp at h2
  obtain ⟨f, hf⟩ := List.exists_mem_of_ne_nil _ hne
  have hfp := List.of_mem_filter hf
  have hfkey : strLower f.stem = key := by
    simpa using hfp
  have hfc : f ∈ checkDuplicatesInLibrary files := List.mem_of_mem_filter hf
  have hflag : flaggedGroup (sameStemGroup files key) = false := by
    have := List.of_mem_filter hfc
    rw [hfkey] at this
    simpa using this
  have hsub : List.Sublist (sameStemGroup (checkDuplicatesInLibrary files) key)
      (sameStemGroup files key) :=
    List.Sublist.filter _ (List.filter_sublist files)
  have hGlen : 1 < (sameStemGroup files key).length :=
    lt_of_lt_of_le (by omega) hsub.length_le
  have hG : allSameStr ((sameStemGroup files key).map (fun f => strLower f.ext)) = true
      ∧ allSameStr ((sameStemGroup files key).map (fun f => f.stem)) = true := by
    rw [flaggedGroup] at hflag
    simp only [hGlen, decide_eq_true_eq, Bool.and_eq_false_iff, Bool.or_eq_false_iff,
      Bool.not_eq_false] at hflag
    rcases hflag with h | h
    · simp at h
    · simpa using h
  constructor
  · rw [allSameStr_iff]
    intro a ha b hb
    rw [allSameStr_iff] at hG
    exact hG.1 a ((hsub.map _).subset ha) b ((hsub.map _).subset hb)
  · rw [allSameStr_iff]
    intro a ha b hb
    have hG2 := hG.2
    rw [allSameStr_iff] at hG2
    exact hG2 a ((hsub.map _).subset ha) b ((hsub.map _).subset hb)

/-- Witness for the amended C6 claim: two copies of `x.mp3` in subdirectories
`a/` and `b/` both survive the sweep and agree on extension and stem. -/
theorem check_duplicates_residual_groups_witness :
    allSameStr ((sameStemGroup
        (checkDuplicatesInLibrary [⟨"a", "x", "mp3"⟩, ⟨"b", "x", "mp3"⟩]) ("x")).map
        (fun f => strLower f.ext)) = true
      ∧ allSameStr ((sameStemGroup
        (checkDuplicatesInLibrary [⟨"a", "x", "mp3"⟩, ⟨"b", "x", "mp3"⟩]) ("x")).map
        (fun f => f.stem)) = true :=
  check_duplicates_residual_groups [⟨"a", "x", "mp3"⟩, ⟨"b", "x", "mp3"⟩] ("x") (by decide)

/-- Claim C6 is false as stated: `Library/a/song.mp3` and `Library/b/song.mp3`
share a lowercased stem but have one extension and one original-case stem, so
the sweep flags nothing and both files remain — the group still has size 2
after `check_duplicates_in_library` returns. -/
theorem check_duplicates_stem_group_counterexample :
    checkDuplicatesInLibrary [⟨"a", "song", "mp3"⟩, ⟨"b", "song", "mp3"⟩]
        = [⟨"a", "song", "mp3"⟩, ⟨"b", "song", "mp3"⟩]
      ∧ (sameStemGroup
          (checkDuplicatesInLibrary [⟨"a", "song", "mp3"⟩, ⟨"b", "song", "mp3"⟩])
          ("song")).length = 2
      ∧ ¬ (sameStemGroup
          (checkDuplicatesInLibrary [⟨"a", "song", "mp3"⟩, ⟨"b", "song", "mp3"⟩])
          ("song")).length = 1 := by
  decide

end MusicLib
